import Mathlib

/-!
Verification of the `pyedhrec` client library (EDHRec HTTP client).

This file gives a shallow embedding of the library's core logic:
  * `src/edhrec/caching.py` — the time-expiring memoizer
    (`generate_wrapped_func` and the per-operation cache decorators);
  * `src/edhrec/pyedhrec.py` — the `EDHRec` client: card-name
    normalization, cookie-jar construction, build-id resolution,
    Next.js URI synthesis, response unwrapping, the color-archetype
    table and the paginated top-commander generator.

Modelling conventions:
  * Python `datetime` values become absolute timestamps in seconds (`Nat`);
    `timedelta(seconds=86400)` becomes `+ 86400`.
  * Decoded JSON values become the inductive `Json` type; Python `None`
    is `Option.none` when a value can be `None`.
  * Python exceptions become `Except PyErr`; a Python function that can
    raise returns `Except PyErr α`.
  * Network and parsing effects (`requests.Session.get`, the
    `__NEXT_DATA__` regex, `json.loads`) are abstracted into an `Env`
    record of oracles that a theorem may constrain or quantify over.
  * Python dictionaries used as query-parameter maps become functions
    `String → Option String` with last-wins insertion.
  * `str.lower` is modelled on the ASCII range via `Char.toLower`,
    matching CPython on the ASCII card names the library handles.
-/

namespace PyEDHRec

/-! ## Python string primitives

`findSubL`, `pySplitGo`/`pySplitL`, `pyReplace`, `pyFind` and
`pySliceTo` model the Python `str` operations `find`, `split`,
`replace` and slicing `s[:i]`, at the level of character lists.
All are structurally recursive (fuel-based where needed) so that they
evaluate by `rfl`/`decide`.
-/

/-- Index of the first occurrence of `sep` as a contiguous sublist of
`s`, if any (the index part of Python `str.find`). -/
def findSubL (sep : List Char) : List Char → Option Nat
  | [] => if sep.isEmpty then some 0 else none
  | c :: rest =>
    if sep.isPrefixOf (c :: rest) then some 0
    else (findSubL sep rest).map (· + 1)

theorem findSubL_some_le (sep : List Char) :
    ∀ (s : List Char) (i : Nat), findSubL sep s = some i → i + sep.length ≤ s.length := by
  intro s
  induction s with
  | nil =>
    intro i h
    by_cases hsep : sep.isEmpty
    · simp only [findSubL] at h
      rw [if_pos hsep] at h
      injection h with h
      have : sep = [] := List.isEmpty_iff.mp hsep
      simp [← h, this]
    · simp only [findSubL] at h
      rw [if_neg hsep] at h
      exact absurd h (by simp)
  | cons c rest ih =>
    intro i h
    by_cases hp : sep.isPrefixOf (c :: rest)
    · simp only [findSubL, if_pos hp, Option.some.injEq] at h
      have hle : sep.length ≤ (c :: rest).length :=
        ( List.isPrefixOf_iff_prefix.mp hp).length_le
      omega
    · simp only [findSubL, if_neg hp, Option.map_eq_some'] at h
      obtain ⟨j, hj, rfl⟩ := h
      have := ih j hj
      simp only [List.length_cons]
      omega

/-- Fuel-driven worker for Python `str.split(sep)` (split on every
non-overlapping occurrence of `sep`, left to right). -/
def pySplitGo (sep : List Char) : Nat → List Char → List (List Char)
  | 0, s => [s]
  | fuel + 1, s =>
    match findSubL sep s with
    | none => [s]
    | some i => s.take i :: pySplitGo sep fuel (s.drop (i + sep.length))

/-- Model of Python `s.split(sep)` on character lists (`sep` nonempty in every
use below, as in the source). -/
def pySplitL (sep s : List Char) : List (List Char) :=
  pySplitGo sep s.length s

/-- Model of Python `s.split(sep)`. -/
def pySplit (s sep : String) : List String :=
  (pySplitL sep.data s.data).map String.mk

/-- Model of Python `s.replace(old, new)` (replace every occurrence). -/
def pyReplace (s old new : String) : String :=
  String.mk (List.intercalate new.data (pySplitL old.data s.data))

/-- Model of Python `s.find(sub)`: index of the first occurrence, `-1` if absent. -/
def pyFind (s sub : String) : Int :=
  match findSubL sub.data s.data with
  | some i => Int.ofNat i
  | none => -1

/-- Model of the Python slice `s[:i]` with a possibly negative bound. -/
def pySliceTo (s : String) (i : Int) : String :=
  String.mk (s.data.take (if i < 0 then ((s.data.length : Int) + i).toNat else i.toNat))

/-- Model of `s.startswith(pre)`, on the
underlying character lists. -/
def pyStartsWith (s pre : String) : Bool :=
  pre.data.isPrefixOf s.data

/-- Model of Python string comparison `a <= b` (lexicographic by code point),
as used by `sorted` on a list of strings. -/
def strLeB : List Char → List Char → Bool
  | [], _ => true
  | _ :: _, [] => false
  | a :: as, b :: bs => if a = b then strLeB as bs else decide (a < b)

/-- The comparison used by `sorted` on Python strings. -/
def pyStrLe (a b : String) : Prop := strLeB a.data b.data = true

instance : DecidableRel pyStrLe := fun a b => instDecidableEqBool (strLeB a.data b.data) true

theorem strLeB_total : ∀ x y : List Char, strLeB x y = true ∨ strLeB y x = true
  | [], _ => by left; rfl
  | _ :: _, [] => by right; rfl
  | a :: as, b :: bs => by
    by_cases hab : a = b
    · subst hab
      rcases strLeB_total as bs with h | h
      · left; simpa [strLeB] using h
      · right; simpa [strLeB] using h
    · rcases lt_or_gt_of_ne hab with h | h
      · left; simp [strLeB, hab, h]
      · right; simp [strLeB, Ne.symm hab, h]

theorem strLeB_trans : ∀ x y z : List Char,
    strLeB x y = true → strLeB y z = true → strLeB x z = true
  | [], _, _ => by intro _ _; rfl
  | a :: as, [], _ => by intro h _; simp [strLeB] at h
  | a :: as, b :: bs, [] => by intro _ h; simp [strLeB] at h
  | a :: as, b :: bs, c :: cs => by
    intro h1 h2
    by_cases hab : a = b <;> by_cases hbc : b = c
    · subst hab; subst hbc
      simp only [strLeB, if_pos rfl] at h1 h2 ⊢
      exact strLeB_trans as bs cs h1 h2
    · subst hab
      simp only [strLeB, if_pos rfl] at h1
      simp only [strLeB, if_neg hbc] at h2 ⊢
      exact h2
    · subst hbc
      simp only [strLeB, if_neg hab] at h1 ⊢
      exact h1
    · simp only [strLeB, if_neg hab] at h1
      simp only [strLeB, if_neg hbc] at h2
      have hac : a < c := lt_trans (of_decide_eq_true h1) (of_decide_eq_true h2)
      have : a ≠ c := ne_of_lt hac
      simp [strLeB, this, hac]

theorem strLeB_antisymm : ∀ x y : List Char,
    strLeB x y = true → strLeB y x = true → x = y
  | [], [] => by intro _ _; rfl
  | [], _ :: _ => by intro _ h; simp [strLeB] at h
  | _ :: _, [] => by intro h _; simp [strLeB] at h
  | a :: as, b :: bs => by
    intro h1 h2
    by_cases hab : a = b
    · subst hab
      simp only [strLeB, if_pos rfl] at h1 h2
      rw [strLeB_antisymm as bs h1 h2]
    · simp only [strLeB, if_neg hab] at h1
      simp only [strLeB, if_neg (Ne.symm hab)] at h2
      exact absurd (of_decide_eq_true h2) (lt_asymm (of_decide_eq_true h1))

instance : IsTotal String pyStrLe :=
  ⟨fun a b => strLeB_total a.data b.data⟩

instance : IsTrans String pyStrLe :=
  ⟨fun a b c => strLeB_trans a.data b.data c.data⟩

instance : IsAntisymm String pyStrLe :=
  ⟨fun a b h1 h2 => String.ext (strLeB_antisymm a.data b.data h1 h2)⟩

/-- Model of Python `sorted` on a list of strings. -/
def pySorted (l : List String) : List String :=
  l.insertionSort pyStrLe

/-- Sorting depends only on the multiset of elements. -/
theorem pySorted_perm_eq {l₁ l₂ : List String} (h : l₁.Perm l₂) :
    pySorted l₁ = pySorted l₂ :=
  List.eq_of_perm_of_sorted
    (((List.perm_insertionSort pyStrLe l₁).trans h).trans
      (List.perm_insertionSort pyStrLe l₂).symm)
    (List.sorted_insertionSort pyStrLe l₁)
    (List.sorted_insertionSort pyStrLe l₂)

/-! ## Decoded JSON values and Python exceptions -/

/-- A decoded JSON value (the result of `res.json()` / `json.loads`). -/
inductive Json where
  | null
  | bool (b : Bool)
  | num (n : Int)
  | str (s : String)
  | arr (xs : List Json)
  | obj (kvs : List (String × Json))

/-- The Python exceptions the embedded code can raise. -/
inductive PyErr where
  | httpError (status : Nat)
  | attributeError
  | typeError
  | keyError (k : String)
  | indexError
  | assertionError (msg : String)
deriving DecidableEq

/-- Truthiness (Python) of a JSON value. -/
def Json.truthy : Json → Bool
  | .null => false
  | .bool b => b
  | .num n => n ≠ 0
  | .str s => s ≠ ""
  | .arr xs => ¬xs.isEmpty
  | .obj kvs => ¬kvs.isEmpty

/-- Truthiness (Python) of an optional JSON value (`None` is falsy). -/
def pyTruthy : Option Json → Bool
  | none => false
  | some j => j.truthy

/-- Truthiness (Python) of an optional string parameter (`None` and `""`
are falsy). -/
def pyTruthyS : Option String → Bool
  | none => false
  | some s => s ≠ ""

/-- Model of Python `str(x)` as used in f-string interpolation. Exact for the
scalar values the claims exercise; container values get a simplified
rendering (the library only ever interpolates the build id, a string). -/
def Json.pyStr : Json → String
  | .null => "None"
  | .bool true => "True"
  | .bool false => "False"
  | .num n => toString n
  | .str s => s
  | .arr _ => "[...]"
  | .obj _ => "\x7b...\x7d"

/-- Model of `str(x)` for a value that may be Python `None`. -/
def pyStrOpt : Option Json → String
  | none => "None"
  | some j => j.pyStr

/-- Model of Python `x.get(k)` on a decoded JSON value: `None`-or-value on a
dict, `AttributeError` on anything else. -/
def Json.dget : Json → String → Except PyErr (Option Json)
  | .obj kvs, k => .ok (kvs.lookup k)
  | _, _ => .error .attributeError

/-- Model of Python `x.get(k, d)` on a decoded JSON value. -/
def Json.dgetD : Json → String → Json → Except PyErr Json
  | .obj kvs, k, d => .ok ((kvs.lookup k).getD d)
  | _, _, _ => .error .attributeError

/-- Model of Python `k in x` for a string `k`: key test on a dict, membership on
a list, substring test on a string, `TypeError` otherwise. -/
def pyContains (k : String) : Json → Except PyErr Bool
  | .obj kvs => .ok (kvs.lookup k).isSome
  | .arr xs => .ok (xs.any fun x => match x with | .str s => s = k | _ => false)
  | .str s => .ok (findSubL k.data s.data).isSome
  | _ => .error .typeError

/-- Model of the Python subscript `x[k]` with a string key, where `x` may be `None`:
`KeyError` on a dict without the key, `TypeError` on non-dicts. -/
def pySub (x : Option Json) (k : String) : Except PyErr Json :=
  match x with
  | some (.obj kvs) =>
    match kvs.lookup k with
    | some v => .ok v
    | none => .error (.keyError k)
  | _ => .error .typeError

/-- Model of the Python subscript `x[i]` with a nonnegative integer index, where `x`
may be `None`: `IndexError` past the end of a list, `TypeError` on
non-lists. -/
def pyIdx (x : Option Json) (i : Nat) : Except PyErr Json :=
  match x with
  | some (.arr xs) =>
    match xs[i]? with
    | some v => .ok v
    | none => .error .indexError
  | _ => .error .typeError

/-! ## `caching.py` — the time-expiring memoizer

`generate_wrapped_func(function, cache)` closes over one mutable dict
and returns a wrapper.  We model one call of that wrapper: the cache is
a map from the positional-argument tuple to an entry, threaded
explicitly; `datetime.utcnow()` becomes the `now` argument; the
underlying function is time-indexed (`func now args`) so that a
recomputation at a later time can be observed to produce the fresh
result.  The third component counts how often the underlying function
was invoked during the call. -/

/-- A cache value: `{"result": ..., "expiry": ...}`. -/
structure CacheEntry (β : Type) where
  result : β
  expiry : Nat

/-- Store `entry` under key `args` (Python `cache[args] = entry`). -/
def cacheInsert {α β : Type} [DecidableEq α]
    (cache : α → Option (CacheEntry β)) (args : α) (entry : CacheEntry β) :
    α → Option (CacheEntry β) :=
  fun a => if a = args then some entry else cache a

/-- One call of the wrapper produced by `generate_wrapped_func`.
Returns the wrapper's result, the cache after the call, and the number
of invocations of the underlying function during the call. -/
def wrapped_call {α β : Type} [DecidableEq α] (func : Nat → α → β)
    (wrapped_cache : α → Option (CacheEntry β)) (now : Nat) (args : α) :
    β × (α → Option (CacheEntry β)) × Nat :=
  match wrapped_cache args with
  | some entry =>
    -- if now >= wrapped_cache[args].get("expiry"): recompute and overwrite
    if entry.expiry ≤ now then
      let result := func now args
      let expiry := now + 86400
      let cache2 := cacheInsert wrapped_cache args ⟨result, expiry⟩
      -- return wrapped_cache[args].get("result")  (the freshly stored result)
      (result, cache2, 1)
    else
      (entry.result, wrapped_cache, 0)
  | none =>
    let result := func now args
    let expiry := now + 86400
    (result, cacheInsert wrapped_cache args ⟨result, expiry⟩, 1)

/-! ## `pyedhrec.py` — the `EDHRec` client -/

/-- Model of `EDHRec.format_card_name`: lowercase, spaces to hyphens, strip
apostrophes and commas.  Each step models one line of the source;
Python's single-character `str.replace` is exactly a character-level
map (for `" " → "-"`) or filter (for deletions), and `str.lower` is
modelled on the ASCII range by `Char.toLower`. -/
def format_card_name (card_name : String) : String :=
  -- card_name = card_name.lower()
  let lowered := card_name.data.map Char.toLower
  -- card_name = card_name.replace(" ", "-")
  let hyphened := lowered.map fun c => if c = ' ' then '-' else c
  -- card_name = card_name.replace("'", "")
  let noApostrophes := hyphened.filter fun c => c ≠ Char.ofNat 39
  -- card_name = card_name.replace(",", "")
  let noCommas := noApostrophes.filter fun c => c ≠ ','
  String.mk noCommas

/-- Model of `EDHRec.get_cookie_jar`: strip a leading `userState=` marker via
`split("userState=")[1]`, then wrap into a single-key cookie dict. -/
def get_cookie_jar (cookie_str : String) : List (String × String) :=
  let c :=
    if pyStartsWith cookie_str "userState="
    then (pySplit cookie_str "userState=").getD 1 ""
    else cookie_str
  [("userState", c)]

/-- The instance state of an `EDHRec` client that the embedded methods
read or write (`__init__` sets `base_url`, `default_build_id` and
`current_build_id = None`). -/
structure EDHRec where
  base_url : String
  default_build_id : String
  current_build_id : Option Json

/-- A freshly constructed client. -/
def EDHRec.init : EDHRec :=
  { base_url := "https://edhrec.com"
    default_build_id := "mI7k8IZ23x74LocK_h-qe"
    current_build_id := none }

/-- The external effects of the client, as oracles:
  * `fetchRaw` — `self._get(self.base_url, return_type="raw")` decoded
    as UTF-8 (an `HTTPError` from `raise_for_status` is `.error`);
  * `scriptOf` — the first match of the `__NEXT_DATA__` script-block
    regex in a page, if any (`re.findall(...)[0]`);
  * `parseOf` — `json.loads`, with `none` for a `JSONDecodeError`;
  * `fetchJson` — `self._get(uri)` returning decoded JSON. -/
structure Env where
  fetchRaw : Except PyErr String
  scriptOf : String → Option String
  parseOf : String → Option Json
  fetchJson : String → Except PyErr Json

/-- Model of `EDHRec.get_build_id`: fetch the landing page, locate the embedded
`__NEXT_DATA__` JSON, return its `buildId` field.  A missing script
block or malformed JSON yields `None`; an HTTP error propagates, and
`props_data.get("buildId")` on a non-dict raises `AttributeError`. -/
def get_build_id (_st : EDHRec) (env : Env) : Except PyErr (Option Json) :=
  match env.fetchRaw with
  | .error e => .error e
  | .ok home_page_content =>
    match env.scriptOf home_page_content with
    | none => .ok none
    | some props_str =>
      match env.parseOf props_str with
      | none => .ok none
      | some props_data => props_data.dget "buildId"

/-- Model of `EDHRec.check_build_id`: resolve once, cache on the instance, fall
back to the hardcoded default when the resolved value is falsy. -/
def check_build_id (st : EDHRec) (env : Env) : Except PyErr (EDHRec × Bool) :=
  if pyTruthy st.current_build_id then .ok (st, true)
  else
    match get_build_id st env with
    | .error e => .error e
    | .ok bid =>
      let st1 := { st with current_build_id := bid }
      let st2 :=
        if pyTruthy st1.current_build_id then st1
        else { st1 with current_build_id := some (.str st1.default_build_id) }
      .ok (st2, true)

/-- Query-parameter dictionaries, with last-wins insertion. -/
def QueryParams : Type := String → Option String

/-- The empty dict. -/
def qpEmpty : QueryParams := fun _ => none

/-- Insertion `d[k] = v` (overwrites). -/
def qpInsert (k v : String) (d : QueryParams) : QueryParams :=
  fun k' => if k' = k then some v else d k'

/-- The URI computed by `_build_nextjs_uri` from the post-check state. -/
def nextjs_uri_str (st : EDHRec) (endpoint card_name : String)
    (theme budget : Option String) : String :=
  st.base_url ++ "/_next/data/" ++ pyStrOpt st.current_build_id ++ "/" ++ endpoint
    ++ "/" ++ format_card_name card_name
    ++ (if pyTruthyS theme then "/" ++ theme.getD "" else "")
    ++ (if budget = some "budget" then "/budget.json"
        else if budget = some "expensive" then "/expensive.json"
        else ".json")

/-- The query-parameter dict computed by `_build_nextjs_uri`. -/
def nextjs_params (endpoint card_name : String)
    (slug theme budget : Option String) : QueryParams :=
  let formatted_card_name := format_card_name card_name
  let q0 := qpInsert "commanderName" formatted_card_name qpEmpty
  let q1 :=
    if pyTruthyS theme ∧ pyTruthyS budget = false
    then qpInsert "themeName" (theme.getD "") q0 else q0
  let q2 :=
    if budget = some "budget" then qpInsert "themeName" "budget" q1
    else if budget = some "expensive" then qpInsert "themeName" "expensive" q1
    else q1
  let q3 := if pyTruthyS slug then qpInsert "slug" (slug.getD "") q2 else q2
  if endpoint = "combos" then qpInsert "colors" formatted_card_name q3 else q3

/-- Model of `EDHRec._build_nextjs_uri`: ensure a build id, then synthesize the
versioned data URI and its query parameters. -/
def build_nextjs_uri (st : EDHRec) (env : Env) (endpoint card_name : String)
    (slug theme budget : Option String) :
    Except PyErr (EDHRec × String × QueryParams) :=
  match check_build_id st env with
  | .error e => .error e
  | .ok (st1, _) =>
    .ok (st1, nextjs_uri_str st1 endpoint card_name theme budget,
         nextjs_params endpoint card_name slug theme budget)

/-- Model of `EDHRec._get_nextjs_data`: unwrap the Next.js envelope.  A payload
without `pageProps` falls through to an implicit `None`. -/
def get_nextjs_data (response : Json) : Except PyErr (Option Json) := do
  if (← pyContains "pageProps" response) then
    let pp ← response.dgetD "pageProps" (.obj [])
    pp.dget "data"
  else
    pure none

/-! ## Paginated top-commander listings

`_get_top_commanders` is a generator.  We model a full consumption of
the sequence as the list of events it produces in order: one `fetch`
event per HTTP request and one `yielded` event per produced name.
Python exceptions raised during consumption abort with `.error`. -/

/-- An observable event of the generator. -/
inductive Event where
  | fetch (uri : String)
  | yielded (name : Json)

/-- Does an event yield a name? -/
def Event.isYielded : Event → Bool
  | .yielded _ => true
  | _ => false

/-- Is an event an HTTP fetch? -/
def Event.isFetch : Event → Bool
  | .fetch _ => true
  | _ => false

/-- The loop body of `_get_top_commanders`: `for i in range(n)` with
`local_index, global_index = i % 100, i // 100`, refetching via the
`more` pointer at the start of each block past the first.  The first
argument is the number of remaining iterations, the second the loop
counter `i`. -/
def tcLoop (env : Env) : Nat → Nat → String → Option Json → Except PyErr (List Event)
  | 0, _, _, _ => .ok []
  | rem + 1, i, top_commanders_uri, cardlist => do
    let local_index := i % 100
    let global_index := i / 100
    if local_index = 0 ∧ global_index ≠ 0 then do
      let replace_index := pyFind top_commanders_uri "commander"
      let more ← pySub cardlist "more"
      -- uri[:replace_index] + cardlist["more"]  (TypeError unless a str)
      let moreStr ← match more with
        | .str s => Except.ok s
        | _ => Except.error PyErr.typeError
      let uri2 := pySliceTo top_commanders_uri replace_index ++ moreStr
      match env.fetchJson uri2 with
      | .error e => .error e
      | .ok res => do
        let cardlist2 ← get_nextjs_data res
        let cv ← pySub cardlist2 "cardviews"
        let item ← pyIdx (some cv) local_index
        let nm ← pySub (some item) "name"
        let rest ← tcLoop env rem (i + 1) uri2 cardlist2
        pure (.fetch uri2 :: .yielded nm :: rest)
    else do
      let cv ← pySub cardlist "cardviews"
      let item ← pyIdx (some cv) local_index
      let nm ← pySub (some item) "name"
      let rest ← tcLoop env rem (i + 1) top_commanders_uri cardlist
      pure (.yielded nm :: rest)

/-- The initial URI of `_get_top_commanders` (after the empty-query
fixup `uri.replace("commanders/.json", "commanders.json")`). -/
def top_commanders_uri_of (st : EDHRec) (query : String) : String :=
  let u := nextjs_uri_str st "commanders" query none none
  if query.length = 0 then pyReplace u "commanders/.json" "commanders.json" else u

/-- Model of `EDHRec._get_top_commanders(query, n)`, fully consumed: build the
first URI, fetch and unwrap the first block, then run the loop.
Returns the post-call instance state and the event trace. -/
def get_top_commanders (st : EDHRec) (env : Env) (query : String) (n : Nat) :
    Except PyErr (EDHRec × List Event) :=
  match build_nextjs_uri st env "commanders" query none none none with
  | .error e => .error e
  | .ok (st1, uri0, _params) =>
    let top_commanders_uri :=
      if query.length = 0 then pyReplace uri0 "commanders/.json" "commanders.json" else uri0
    match env.fetchJson top_commanders_uri with
    | .error e => .error e
    | .ok res =>
      match (do
        let data ← get_nextjs_data res
        let c1 ← pySub data "container"
        let c2 ← pySub (some c1) "json_dict"
        let c3 ← pySub (some c2) "cardlists"
        let cardlist ← pyIdx (some c3) 0
        let evs ← tcLoop env n 0 top_commanders_uri (some cardlist)
        pure evs : Except PyErr (List Event)) with
      | .error e => .error e
      | .ok evs => .ok (st1, .fetch top_commanders_uri :: evs)

/-- The color-archetype table of `get_top_commanders_by_color`, in
source order. -/
def color_archetypes : List (String × String) :=
  [("w", "mono-white"), ("u", "mono-blue"), ("b", "mono-black"), ("r", "mono-red"),
   ("g", "mono-green"), ("c", "colorless"), ("uw", "azorius"), ("bu", "dimir"),
   ("br", "rakdos"), ("gr", "gruul"), ("gw", "selesnya"), ("bw", "orzhov"),
   ("ru", "izzet"), ("bg", "golgari"), ("rw", "boros"), ("gu", "simic"),
   ("buw", "esper"), ("bru", "grixis"), ("bgr", "jund"), ("grw", "naya"),
   ("guw", "bant"), ("bgw", "abzan"), ("ruw", "jeskai"), ("bgu", "sultai"),
   ("brw", "mardu"), ("gru", "temur"), ("bruw", "yore-tiller"), ("bgru", "glint-eye"),
   ("bgrw", "dune-brood"), ("gruw", "ink-treader"), ("bguw", "witch-maw"),
   ("bgruw", "five-color")]

/-- The sort key `color_sting = "".join(sorted(colors))`. -/
def color_sort_key (colors : List String) : String :=
  String.join (pySorted colors)

/-- The rendered archetype dict, as interpolated into the assertion
message (`\x7b` and `\x7d` are the brace characters of Python's dict
repr, and `Char.ofNat 39` the single quote). -/
def color_archetypes_repr : String :=
  let q := String.singleton (Char.ofNat 39)
  "\x7b" ++
    String.intercalate ", "
      (color_archetypes.map fun kv => q ++ kv.1 ++ q ++ ": " ++ q ++ kv.2 ++ q)
    ++ "\x7d"

/-- The message of the failed color-selection assertion. -/
def color_assert_msg : String :=
  "Wrong color selection, available color combinations are: \n" ++ color_archetypes_repr

/-- Model of `EDHRec.get_top_commanders_by_color`, fully consumed: validate the
sorted color string against the archetype table (the `assert`), then
delegate to `_get_top_commanders` with the archetype as query. -/
def get_top_commanders_by_color (st : EDHRec) (env : Env) (colors : List String)
    (n : Nat) : Except PyErr (EDHRec × List Event) :=
  let color_sting := color_sort_key colors
  match color_archetypes.lookup color_sting with
  | none => .error (.assertionError color_assert_msg)
  | some archetype => get_top_commanders st env archetype n

/-! ## Helper lemmas -/

theorem char_toNat_ofNat {n : Nat} (h : n < 55296) : (Char.ofNat n).toNat = n := by
  rw [Char.ofNat, dif_pos (Or.inl h)]
  rfl

theorem toLower_toNat_not_upper (c : Char) :
    ¬(65 ≤ (Char.toLower c).toNat ∧ (Char.toLower c).toNat ≤ 90) := by
  simp only [Char.toLower]
  by_cases h : c.toNat ≥ 65 ∧ c.toNat ≤ 90
  · rw [if_pos h, char_toNat_ofNat (by omega)]
    omega
  · rw [if_neg h]
    omega

theorem toLower_eq_self_of_not_upper {c : Char}
    (h : ¬(65 ≤ c.toNat ∧ c.toNat ≤ 90)) : Char.toLower c = c := by
  simp only [Char.toLower]
  rw [if_neg (by omega)]

/-- Characters already in the image of the normalization. -/
def normalChar (c : Char) : Prop :=
  ¬(65 ≤ c.toNat ∧ c.toNat ≤ 90) ∧ c ≠ ' ' ∧ c ≠ Char.ofNat 39 ∧ c ≠ ','

theorem format_card_name_data (s : String) :
    (format_card_name s).data =
      (((s.data.map Char.toLower).map fun c => if c = ' ' then '-' else c).filter
        (fun c => c ≠ Char.ofNat 39)).filter (fun c => c ≠ ',') := rfl

theorem format_card_name_chars (s : String) :
    ∀ c ∈ (format_card_name s).data, normalChar c := by
  intro c hc
  rw [format_card_name_data] at hc
  simp only [List.mem_filter, List.mem_map, decide_eq_true_eq] at hc
  obtain ⟨⟨⟨d, ⟨e, _he, rfl⟩, rfl⟩, hapos⟩, hcomma⟩ := hc
  refine ⟨?_, ?_, hapos, hcomma⟩
  · by_cases hd : Char.toLower e = ' '
    · rw [if_pos hd]
      decide
    · rw [if_neg hd]
      exact toLower_toNat_not_upper e
  · by_cases hd : Char.toLower e = ' '
    · rw [if_pos hd]
      decide
    · rw [if_neg hd]
      exact hd

theorem format_card_name_of_normal (s : String)
    (h : ∀ c ∈ s.data, normalChar c) : format_card_name s = s := by
  apply String.ext
  rw [format_card_name_data]
  have h1 : s.data.map Char.toLower = s.data := by
    rw [show s.data.map Char.toLower = s.data.map id from
          List.map_congr_left fun c hc => toLower_eq_self_of_not_upper (h c hc).1,
        List.map_id]
  rw [h1]
  have h2 : (s.data.map fun c => if c = ' ' then '-' else c) = s.data := by
    rw [show (s.data.map fun c => if c = ' ' then '-' else c) = s.data.map id from
          List.map_congr_left fun c hc => if_neg (h c hc).2.1,
        List.map_id]
  rw [h2]
  have h3 : List.filter (fun c => decide (c ≠ Char.ofNat 39)) s.data = s.data :=
    List.filter_eq_self.mpr fun c hc => by simp [(h c hc).2.2.1]
  rw [h3]
  have h4 : List.filter (fun c => decide (c ≠ ',')) s.data = s.data :=
    List.filter_eq_self.mpr fun c hc => by simp [(h c hc).2.2.2]
  rw [h4]

/-! ## C6 — card-name normalization -/

/-- C6: card-name normalization is deterministic (it is a function) and
idempotent; `"Miirym, Sentinel Wyrm"` normalizes to
`"miirym-sentinel-wyrm"`; apostrophes and commas are removed but other
punctuation (here `!`, `.`, `-`, `_`) passes through unchanged. -/
theorem format_card_name_idempotent :
    (∀ s, format_card_name (format_card_name s) = format_card_name s)
    ∧ format_card_name "Miirym, Sentinel Wyrm" = "miirym-sentinel-wyrm"
    ∧ format_card_name ("X! Y" ++ String.singleton (Char.ofNat 39) ++ "s, Z_q.-d")
        = "x!-ys-z_q.-d" := by
  refine ⟨fun s => format_card_name_of_normal _ (format_card_name_chars s), ?_, ?_⟩
  · decide
  · decide

/-! ## C1 — the time-expiring memoizer -/

/-- C1: a first call with a fresh argument tuple invokes the underlying
function exactly once, stores the result with expiry `now + 24h`
(86400 s) and returns it; a later call strictly before the stored
expiry returns the stored result without invoking the function; a call
at or after the stored expiry invokes it again, overwrites the entry
with a fresh 24-hour expiry, and returns the new result. -/
theorem memoizer_ttl_correct {α β : Type} [DecidableEq α]
    (func : Nat → α → β) (cache : α → Option (CacheEntry β)) (args : α) (t0 : Nat)
    (hfresh : cache args = none) :
    wrapped_call func cache t0 args
      = (func t0 args, cacheInsert cache args ⟨func t0 args, t0 + 86400⟩, 1)
    ∧ (∀ t1, t1 < t0 + 86400 →
        wrapped_call func (cacheInsert cache args ⟨func t0 args, t0 + 86400⟩) t1 args
          = (func t0 args, cacheInsert cache args ⟨func t0 args, t0 + 86400⟩, 0))
    ∧ (∀ t1, t0 + 86400 ≤ t1 →
        wrapped_call func (cacheInsert cache args ⟨func t0 args, t0 + 86400⟩) t1 args
          = (func t1 args,
             cacheInsert (cacheInsert cache args ⟨func t0 args, t0 + 86400⟩) args
               ⟨func t1 args, t1 + 86400⟩, 1)) := by
  have hl : cacheInsert cache args (⟨func t0 args, t0 + 86400⟩ : CacheEntry β) args
      = some ⟨func t0 args, t0 + 86400⟩ := by
    simp [cacheInsert]
  refine ⟨?_, ?_, ?_⟩
  · simp [wrapped_call, hfresh]
  · intro t1 h
    simp only [wrapped_call, hl]
    rw [if_neg (by omega)]
  · intro t1 h
    simp only [wrapped_call, hl]
    rw [if_pos (by omega)]

/-- Concrete instantiation of C1 (`func t x = t + x`, empty cache,
first call at `t = 10` with argument `5`, re-reads at `20` and
`90000`). -/
def c1func : Nat → Nat → Nat := fun t x => t + x

/-- The empty cache for the C1 instantiation. -/
def c1cache : Nat → Option (CacheEntry Nat) := fun _ => none

theorem memoizer_ttl_correct_witness :
    wrapped_call c1func c1cache 10 5 = (15, cacheInsert c1cache 5 ⟨15, 86410⟩, 1)
    ∧ wrapped_call c1func (cacheInsert c1cache 5 ⟨15, 86410⟩) 20 5
        = (15, cacheInsert c1cache 5 ⟨15, 86410⟩, 0)
    ∧ wrapped_call c1func (cacheInsert c1cache 5 ⟨15, 86410⟩) 90000 5
        = (90005, cacheInsert (cacheInsert c1cache 5 ⟨15, 86410⟩) 5 ⟨90005, 176400⟩, 1) := by
  obtain ⟨h1, h2, h3⟩ := memoizer_ttl_correct c1func c1cache 5 10 rfl
  exact ⟨h1, h2 20 (by omega), h3 90000 (by omega)⟩

/-! ## C9 — per-instance cache isolation -/

/-- A call reads only the entry at its own key. -/
theorem wrapped_call_local {α β : Type} [DecidableEq α] (func : Nat → α → β)
    (c c' : α → Option (CacheEntry β)) (now : Nat) (args : α)
    (h : c args = c' args) :
    (wrapped_call func c now args).1 = (wrapped_call func c' now args).1
    ∧ (wrapped_call func c now args).2.2 = (wrapped_call func c' now args).2.2 := by
  simp only [wrapped_call, h]
  split
  · split
    · exact ⟨rfl, rfl⟩
    · exact ⟨rfl, rfl⟩
  · exact ⟨rfl, rfl⟩

/-- C9: the decoration-time cache is shared, but every key is the full
positional tuple including the bound instance, so a call on instance
`i1` neither overwrites entries of a distinct instance `i2` (first
conjunct) nor influences what a later call on `i2` returns or whether
it must recompute (second and third conjuncts). -/
theorem memoized_cache_instance_isolation {I A β : Type} [DecidableEq I] [DecidableEq A]
    (func : Nat → I × A → β) (cache : I × A → Option (CacheEntry β))
    (now now' : Nat) (i1 i2 : I) (a b : A) (hne : i1 ≠ i2) :
    (∀ x : A, (wrapped_call func cache now (i1, a)).2.1 (i2, x) = cache (i2, x))
    ∧ (wrapped_call func ((wrapped_call func cache now (i1, a)).2.1) now' (i2, b)).1
        = (wrapped_call func cache now' (i2, b)).1
    ∧ (wrapped_call func ((wrapped_call func cache now (i1, a)).2.1) now' (i2, b)).2.2
        = (wrapped_call func cache now' (i2, b)).2.2 := by
  have hwrite : ∀ x : A,
      (wrapped_call func cache now (i1, a)).2.1 (i2, x) = cache (i2, x) := by
    intro x
    have hxy : ((i2, x) : I × A) ≠ (i1, a) := by
      intro hEq
      exact hne (by injection hEq with h1 _; exact h1.symm)
    simp only [wrapped_call]
    split
    · split
      · simp [cacheInsert, hxy]
      · rfl
    · simp [cacheInsert, hxy]
  exact ⟨hwrite,
    (wrapped_call_local func _ cache now' (i2, b) (hwrite b)).1,
    (wrapped_call_local func _ cache now' (i2, b) (hwrite b)).2⟩

/-- Concrete instantiation of C9: two instances `0 ≠ 1` over the empty
cache. -/
def c9cache : Nat × Nat → Option (CacheEntry Nat) := fun _ => none

/-- The underlying function for the C9 instantiation. -/
def c9func : Nat → Nat × Nat → Nat := fun t p => t + p.1 + p.2

theorem memoized_cache_instance_isolation_witness :
    (∀ x : Nat, (wrapped_call c9func c9cache 7 (0, 3)).2.1 (1, x) = c9cache (1, x))
    ∧ (wrapped_call c9func ((wrapped_call c9func c9cache 7 (0, 3)).2.1) 8 (1, 4)).1
        = (wrapped_call c9func c9cache 8 (1, 4)).1
    ∧ (wrapped_call c9func ((wrapped_call c9func c9cache 7 (0, 3)).2.1) 8 (1, 4)).2.2
        = (wrapped_call c9func c9cache 8 (1, 4)).2.2 :=
  memoized_cache_instance_isolation c9func c9cache 7 8 0 1 3 4 (by omega)

@[simp] theorem exbind_ok {ε α β : Type} (a : α) (f : α → Except ε β) :
    (Except.ok a >>= f : Except ε β) = f a := rfl

@[simp] theorem exbind_error {ε α β : Type} (e : ε) (f : α → Except ε β) :
    ((Except.error e : Except ε α) >>= f) = .error e := rfl

@[simp] theorem expure_eq {ε α : Type} (a : α) : (pure a : Except ε α) = .ok a := rfl

/-! ## C7 — response unwrapping -/

/-- C7 counterexample: the claim says missing nested fields yield
`None` rather than an error, for every decoded JSON response with a
top-level `pageProps` field; but on `{"pageProps": 5}` the source's
`response.get("pageProps", {}).get("data")` raises `AttributeError`. -/
theorem get_nextjs_data_nonobj_raises :
    get_nextjs_data (.obj [("pageProps", .num 5)]) = .error .attributeError := rfl

/-- C7 (amended): for every decoded JSON response (a dict): no
top-level `pageProps` key yields `None`; a `pageProps` key holding an
object yields that object's `data` value (`None` when absent); a
`pageProps` key holding a non-object raises `AttributeError`. -/
theorem get_nextjs_data_unwrap (kvs : List (String × Json)) :
    (kvs.lookup "pageProps" = none → get_nextjs_data (.obj kvs) = .ok none)
    ∧ (∀ pv, kvs.lookup "pageProps" = some (.obj pv) →
        get_nextjs_data (.obj kvs) = .ok (pv.lookup "data"))
    ∧ (∀ v, kvs.lookup "pageProps" = some v → (∀ pv, v ≠ .obj pv) →
        get_nextjs_data (.obj kvs) = .error .attributeError) := by
  refine ⟨?_, ?_, ?_⟩
  · intro h
    simp [get_nextjs_data, pyContains, h]
  · intro pv h
    simp [get_nextjs_data, pyContains, Json.dgetD, Json.dget, h]
  · intro v h hv
    cases v with
    | obj pv => exact absurd rfl (hv pv)
    | null => simp [get_nextjs_data, pyContains, Json.dgetD, Json.dget, h]
    | bool b => simp [get_nextjs_data, pyContains, Json.dgetD, Json.dget, h]
    | num n => simp [get_nextjs_data, pyContains, Json.dgetD, Json.dget, h]
    | str s => simp [get_nextjs_data, pyContains, Json.dgetD, Json.dget, h]
    | arr xs => simp [get_nextjs_data, pyContains, Json.dgetD, Json.dget, h]

theorem get_nextjs_data_unwrap_witness :
    get_nextjs_data (.obj [("pageProps", .obj [("data", .obj [("foo", .num 1)])])])
      = .ok (some (.obj [("foo", .num 1)]))
    ∧ get_nextjs_data (.obj [("other", .num 1)]) = .ok none :=
  ⟨(get_nextjs_data_unwrap [("pageProps", .obj [("data", .obj [("foo", .num 1)])])]).2.1
      [("data", .obj [("foo", .num 1)])] rfl,
   (get_nextjs_data_unwrap [("other", .num 1)]).1 rfl⟩

/-! ## C8 — cookie-jar construction -/

/-- C8 counterexample: on a session string in which the marker occurs
twice, `split("userState=")[1]` keeps only the segment up to the second
occurrence, not the whole string with the leading marker removed. -/
theorem get_cookie_jar_double_marker :
    get_cookie_jar "userState=abcuserState=def" = [("userState", "abc")]
    ∧ "abc" ≠ "abcuserState=def" := ⟨by decide, by decide⟩

theorem findSubL_of_isPrefixOf {sep s : List Char} (hne : sep ≠ [])
    (h : sep.isPrefixOf s = true) : findSubL sep s = some 0 := by
  cases s with
  | nil =>
    cases sep with
    | nil => exact absurd rfl hne
    | cons a as => simp [List.isPrefixOf] at h
  | cons c cs =>
    simp only [findSubL]
    rw [if_pos h]

theorem pySplitL_marker {m r : List Char} (hm : m ≠ [])
    (hnone : findSubL m r = none) : pySplitL m (m ++ r) = [[], r] := by
  have h0 : findSubL m (m ++ r) = some 0 :=
    findSubL_of_isPrefixOf hm
      ( List.isPrefixOf_iff_prefix.mpr (List.prefix_append m r))
  obtain ⟨k, hk⟩ : ∃ k, (m ++ r).length = k + 1 := by
    cases m with
    | nil => exact absurd rfl hm
    | cons a as => exact ⟨(as ++ r).length, by simp⟩
  unfold pySplitL
  rw [hk]
  simp only [pySplitGo, h0, List.take_zero, Nat.zero_add, List.drop_left]
  cases k with
  | zero => rfl
  | succ k2 => simp [pySplitGo, hnone]

/-- C8 (amended): if the session string starts with the `userState=`
marker and the marker does not occur again in the remainder, the jar
maps `userState` to the string with the leading marker removed;
without the leading marker the string is passed through unchanged.
(When the marker does occur again, `split` truncates — see the
counterexample.) -/
theorem get_cookie_jar_strip (s : String) :
    (∀ r : String, s = "userState=" ++ r →
        findSubL "userState=".data r.data = none →
        get_cookie_jar s = [("userState", r)])
    ∧ (pyStartsWith s "userState=" = false → get_cookie_jar s = [("userState", s)]) := by
  constructor
  · intro r hs hnone
    subst hs
    have hpre : pyStartsWith ("userState=" ++ r) "userState=" = true := by
      unfold pyStartsWith
      rw [String.data_append]
      exact List.isPrefixOf_iff_prefix.mpr (List.prefix_append _ _)
    unfold get_cookie_jar pySplit
    rw [hpre, String.data_append,
        pySplitL_marker (by decide) hnone]
    rfl
  · intro h
    unfold get_cookie_jar
    rw [h]
    rfl

theorem get_cookie_jar_strip_witness :
    get_cookie_jar "userState=xyz" = [("userState", "xyz")]
    ∧ get_cookie_jar "plain" = [("userState", "plain")] :=
  ⟨(get_cookie_jar_strip "userState=xyz").1 "xyz" (by decide) (by decide),
   (get_cookie_jar_strip "plain").2 (by decide)⟩

/-! ## C3 — build-id resolution and caching -/

/-- An environment whose landing page embeds a `__NEXT_DATA__` block
that parses to a JSON *array*: `props_data.get("buildId")` then raises
`AttributeError`. -/
def c3env_bad : Env :=
  { fetchRaw := .ok "<script id=\"__NEXT_DATA__\" type=\"application/json\">[1]</script>"
    scriptOf := fun s =>
      if s = "<script id=\"__NEXT_DATA__\" type=\"application/json\">[1]</script>"
      then some "[1]" else none
    parseOf := fun s => if s = "[1]" then some (.arr [.num 1]) else none
    fetchJson := fun _ => .error (.httpError 404) }

/-- C3 counterexample: `check_build_id` *can* raise — on a fresh
instance whose landing page carries a non-object `__NEXT_DATA__`
payload, the call propagates `AttributeError` (an HTTP error from the
page fetch propagates the same way), contradicting "never raises". -/
theorem check_build_id_raises :
    check_build_id EDHRec.init c3env_bad = .error .attributeError := rfl

/-- C3 (amended): provided build-id resolution itself completes
without a Python exception (`get_build_id` returns rather than
raises), the first `check_build_id` call on a fresh instance returns
normally and leaves the instance with a truthy build id — the resolved
value when that value is truthy, the hardcoded default otherwise
(including when resolution yields `None`) — and every subsequent call
returns immediately, without re-resolving and without raising, for any
environment. -/
theorem check_build_id_first_call (st : EDHRec) (env : Env) (bid : Option Json)
    (hcur : st.current_build_id = none)
    (hdef : st.default_build_id = "mI7k8IZ23x74LocK_h-qe")
    (hres : get_build_id st env = .ok bid) :
    ∃ st', check_build_id st env = .ok (st', true)
      ∧ st'.current_build_id
          = (if pyTruthy bid then bid else some (.str "mI7k8IZ23x74LocK_h-qe"))
      ∧ pyTruthy st'.current_build_id = true
      ∧ ∀ env', check_build_id st' env' = .ok (st', true) := by
  have h0 : pyTruthy st.current_build_id = false := by rw [hcur]; rfl
  by_cases hb : pyTruthy bid = true
  · refine ⟨{ st with current_build_id := bid }, ?_, ?_, ?_, ?_⟩
    · simp [check_build_id, h0, hres, hb]
    · simp [hb]
    · exact hb
    · intro env'
      have ht : pyTruthy ({ st with current_build_id := bid } : EDHRec).current_build_id
          = true := hb
      simp [check_build_id, ht]
  · refine ⟨{ st with current_build_id := some (.str "mI7k8IZ23x74LocK_h-qe") }, ?_, ?_, ?_, ?_⟩
    · simp [check_build_id, h0, hres, hb, hdef]
    · simp [hb]
    · rfl
    · intro env'
      have ht : pyTruthy ({ st with
          current_build_id := some (.str "mI7k8IZ23x74LocK_h-qe") } : EDHRec).current_build_id
          = true := rfl
      simp [check_build_id, ht]

/-- An environment whose landing page resolves to build id `NEWID`. -/
def c3env_good : Env :=
  { fetchRaw := .ok "HOME"
    scriptOf := fun s => if s = "HOME" then some "S" else none
    parseOf := fun s => if s = "S" then some (.obj [("buildId", .str "NEWID")]) else none
    fetchJson := fun _ => .error (.httpError 500) }

theorem check_build_id_first_call_witness :
    ∃ st', check_build_id EDHRec.init c3env_good = .ok (st', true)
      ∧ st'.current_build_id
          = (if pyTruthy (some (.str "NEWID")) then some (.str "NEWID")
             else some (.str "mI7k8IZ23x74LocK_h-qe"))
      ∧ pyTruthy st'.current_build_id = true
      ∧ ∀ env', check_build_id st' env' = .ok (st', true) :=
  check_build_id_first_call EDHRec.init c3env_good (some (.str "NEWID")) rfl rfl rfl

/-! ## C2 and C10 — URI synthesis -/

theorem str_append_assoc (a b c : String) : a ++ b ++ c = a ++ (b ++ c) :=
  String.ext (by simp [String.data_append])

/-- Inversion of a successful `_build_nextjs_uri` call. -/
theorem build_nextjs_uri_ok_elim {st : EDHRec} {env : Env}
    {endpoint card_name : String} {slug theme budget : Option String}
    {st' : EDHRec} {uri : String} {qp : QueryParams}
    (h : build_nextjs_uri st env endpoint card_name slug theme budget
        = .ok (st', uri, qp)) :
    uri = nextjs_uri_str st' endpoint card_name theme budget
    ∧ qp = nextjs_params endpoint card_name slug theme budget := by
  unfold build_nextjs_uri at h
  cases hc : check_build_id st env with
  | error e =>
    rw [hc] at h
    exact absurd h (by simp)
  | ok p =>
    obtain ⟨st1, b⟩ := p
    rw [hc] at h
    simp only [Except.ok.injEq, Prod.mk.injEq] at h
    obtain ⟨h1, h2, h3⟩ := h
    subst h1
    exact ⟨h2.symm, h3.symm⟩

/-- C10: whatever the endpoint, subject, slug, theme or budget, a
successful `_build_nextjs_uri` call returns query parameters that bind
`commanderName` to the normalized subject name — including for the
non-commander endpoints (`combos`, `average-decks`, `decks`,
`deckpreview`). -/
theorem build_nextjs_uri_commanderName (st : EDHRec) (env : Env)
    (endpoint card_name : String) (slug theme budget : Option String)
    (st' : EDHRec) (uri : String) (qp : QueryParams)
    (h : build_nextjs_uri st env endpoint card_name slug theme budget
        = .ok (st', uri, qp)) :
    qp "commanderName" = some (format_card_name card_name) := by
  obtain ⟨-, hq⟩ := build_nextjs_uri_ok_elim h
  subst hq
  unfold nextjs_params
  split_ifs <;> simp [qpInsert, qpEmpty]

/-- A client whose build id is already resolved, for the closed
instantiations below. -/
def c2state : EDHRec := { EDHRec.init with current_build_id := some (.str "BID123") }

/-- An inert environment (every oracle fails); the instantiations
below never consult it. -/
def c2env : Env :=
  { fetchRaw := .error (.httpError 500)
    scriptOf := fun _ => none
    parseOf := fun _ => none
    fetchJson := fun _ => .error (.httpError 500) }

theorem build_nextjs_uri_commanderName_witness :
    nextjs_params "deckpreview" "SomeHash" none none none "commanderName"
      = some "somehash" :=
  build_nextjs_uri_commanderName c2state c2env "deckpreview" "SomeHash" none none none
    c2state (nextjs_uri_str c2state "deckpreview" "SomeHash" none none)
    (nextjs_params "deckpreview" "SomeHash" none none none) rfl

/-- C2: on a successful `_build_nextjs_uri` call the returned pair is
determined by the inputs and the post-call build id (first conjunct,
the closed form of the URI); a truthy theme with a falsy budget binds
`themeName` to the theme; `budget="budget"`/`"expensive"` appends
`/budget.json` / `/expensive.json` and binds `themeName` to the budget
string, overriding any theme-derived binding; a truthy theme appends
`/{theme}` to the path; any other budget value appends `.json`. -/
theorem build_nextjs_uri_theme_budget (st : EDHRec) (env : Env)
    (endpoint card_name : String) (slug theme budget : Option String)
    (st' : EDHRec) (uri : String) (qp : QueryParams)
    (h : build_nextjs_uri st env endpoint card_name slug theme budget
        = .ok (st', uri, qp)) :
    uri = nextjs_uri_str st' endpoint card_name theme budget
    ∧ (∀ t, theme = some t → t ≠ "" → pyTruthyS budget = false →
        qp "themeName" = some t)
    ∧ (budget = some "budget" → qp "themeName" = some "budget")
    ∧ (budget = some "expensive" → qp "themeName" = some "expensive")
    ∧ (∀ t, theme = some t → t ≠ "" →
        ∃ pre, uri = pre ++ "/" ++ t
          ++ (if budget = some "budget" then "/budget.json"
              else if budget = some "expensive" then "/expensive.json"
              else ".json"))
    ∧ (budget ≠ some "budget" → budget ≠ some "expensive" →
        ∃ pre, uri = pre ++ ".json") := by
  obtain ⟨hu, hq⟩ := build_nextjs_uri_ok_elim h
  subst hu
  subst hq
  refine ⟨rfl, ?_, ?_, ?_, ?_, ?_⟩
  · intro t ht hne hb
    have hb1 : budget ≠ some "budget" := fun e => by subst e; simp [pyTruthyS] at hb
    have hb2 : budget ≠ some "expensive" := fun e => by subst e; simp [pyTruthyS] at hb
    subst ht
    unfold nextjs_params
    split_ifs <;> simp_all [qpInsert, qpEmpty, pyTruthyS]
  · intro hbudget
    subst hbudget
    unfold nextjs_params
    split_ifs <;> simp_all [qpInsert, qpEmpty, pyTruthyS]
  · intro hbudget
    subst hbudget
    unfold nextjs_params
    split_ifs <;> simp_all [qpInsert, qpEmpty, pyTruthyS]
  · intro t ht hne
    subst ht
    have hth : pyTruthyS (some t) = true := by simp [pyTruthyS, hne]
    refine ⟨st'.base_url ++ "/_next/data/" ++ pyStrOpt st'.current_build_id ++ "/"
        ++ endpoint ++ "/" ++ format_card_name card_name, ?_⟩
    unfold nextjs_uri_str
    rw [if_pos hth]
    simp [str_append_assoc, Option.getD]
  · intro hb1 hb2
    refine ⟨st'.base_url ++ "/_next/data/" ++ pyStrOpt st'.current_build_id ++ "/"
        ++ endpoint ++ "/" ++ format_card_name card_name
        ++ (if pyTruthyS theme then "/" ++ theme.getD "" else ""), ?_⟩
    unfold nextjs_uri_str
    rw [if_neg hb1, if_neg hb2]

theorem build_nextjs_uri_theme_budget_witness :
    nextjs_params "commanders" "A" none (some "tokens") (some "budget") "themeName"
      = some "budget"
    ∧ nextjs_params "commanders" "A" none (some "tokens") none "themeName"
      = some "tokens" :=
  ⟨(build_nextjs_uri_theme_budget c2state c2env "commanders" "A" none (some "tokens")
      (some "budget") c2state
      (nextjs_uri_str c2state "commanders" "A" (some "tokens") (some "budget"))
      (nextjs_params "commanders" "A" none (some "tokens") (some "budget")) rfl).2.2.1 rfl,
   (build_nextjs_uri_theme_budget c2state c2env "commanders" "A" none (some "tokens")
      none c2state
      (nextjs_uri_str c2state "commanders" "A" (some "tokens") none)
      (nextjs_params "commanders" "A" none (some "tokens") none) rfl).2.1
      "tokens" rfl (by decide) rfl⟩

/-! ## C4 — color-archetype validation -/

/-- C4: (a) every listed color combination, in any input ordering of
the same letters, resolves to the same archetype and delegates to the
paginated fetch with that archetype as the query; (b) a color list
whose sorted concatenation is not among the 32 keys makes
`get_top_commanders_by_color` fail with the descriptive assertion
message for every environment — in particular before any network
request is consulted. -/
theorem top_commanders_by_color_validation :
    (∀ key arch, (key, arch) ∈ color_archetypes →
      ∀ colors : List String,
        colors.Perm (key.data.map fun c => String.singleton c) →
        ∀ st env n, get_top_commanders_by_color st env colors n
          = get_top_commanders st env arch n)
    ∧ (∀ colors : List String,
        color_archetypes.lookup (color_sort_key colors) = none →
        ∀ st env n, get_top_commanders_by_color st env colors n
          = .error (.assertionError color_assert_msg)) := by
  have hkeys : ∀ p ∈ color_archetypes,
      color_sort_key (p.1.data.map fun c => String.singleton c) = p.1 := by decide
  have hlook : ∀ p ∈ color_archetypes,
      color_archetypes.lookup p.1 = some p.2 := by decide
  constructor
  · intro key arch hmem colors hperm st env n
    have hk : color_sort_key colors = key := by
      have h1 : color_sort_key colors
          = color_sort_key (key.data.map fun c => String.singleton c) := by
        unfold color_sort_key
        rw [pySorted_perm_eq hperm]
      rw [h1]
      exact hkeys (key, arch) hmem
    simp only [get_top_commanders_by_color, hk, hlook (key, arch) hmem]
  · intro colors hnone st env n
    simp only [get_top_commanders_by_color, hnone]

theorem top_commanders_by_color_validation_witness :
    get_top_commanders_by_color c2state c2env ["w", "b"] 3
      = get_top_commanders c2state c2env "orzhov" 3
    ∧ get_top_commanders_by_color c2state c2env ["x"] 3
      = .error (.assertionError color_assert_msg) :=
  ⟨top_commanders_by_color_validation.1 "bw" "orzhov" (by decide) ["w", "b"]
      (by decide) c2state c2env 3,
   top_commanders_by_color_validation.2 ["x"] (by decide) c2state c2env 3⟩

/-! ## C5 — pagination of the top-commander listing

The hypotheses of the pagination theorem describe a well-shaped server:
`uris k` is the URI of block `k` (`uris 0` the one the source builds,
each later one obtained by the source's `more`-pointer surgery),
`names k j` the name at slot `j` of block `k` (each block carrying the
full 100 entries), and `mores k` the `more` pointer of block `k`. -/

/-- One entry of a `cardviews` list. -/
def cardJson (nm : String) : Json := .obj [("name", .str nm)]

/-- A cardlist block with its `more` pointer. -/
def blockJson (cards : List Json) (more : String) : Json :=
  .obj [("cardviews", .arr cards), ("more", .str more)]

/-- The 100 cardviews of block `k`. -/
def block_cards (names : Nat → Nat → String) (k : Nat) : List Json :=
  (List.range 100).map fun j => cardJson (names k j)

/-- The enveloped response of the first fetch (block 0 sits inside
`pageProps.data.container.json_dict.cardlists[0]`). -/
def first_block_response (names : Nat → Nat → String) (mores : Nat → String) : Json :=
  .obj [("pageProps", .obj [("data", .obj [("container", .obj [("json_dict",
    .obj [("cardlists", .arr [blockJson (block_cards names 0) (mores 0)])])])])])]

/-- The enveloped response of a `more` fetch (the block is directly
`pageProps.data`). -/
def more_block_response (names : Nat → Nat → String) (mores : Nat → String)
    (k : Nat) : Json :=
  .obj [("pageProps", .obj [("data", blockJson (block_cards names k) (mores k))])]

/-- The events of loop iteration `i`: a fetch of block `i / 100`
exactly when `i` is a positive multiple of 100, then one yield. -/
def tc_events (uris : Nat → String) (names : Nat → Nat → String) (i : Nat) : List Event :=
  (if i % 100 = 0 ∧ i ≠ 0 then [.fetch (uris (i / 100))] else [])
    ++ [.yielded (.str (names (i / 100) (i % 100)))]

theorem pySub_block_more (cards : List Json) (more : String) :
    pySub (some (blockJson cards more)) "more" = .ok (.str more) := rfl

theorem pySub_block_cardviews (cards : List Json) (more : String) :
    pySub (some (blockJson cards more)) "cardviews" = .ok (.arr cards) := rfl

theorem pySub_card_name (nm : String) :
    pySub (some (cardJson nm)) "name" = .ok (.str nm) := rfl

theorem unwrap_more_block (names : Nat → Nat → String) (mores : Nat → String)
    (k : Nat) :
    get_nextjs_data (more_block_response names mores k)
      = .ok (some (blockJson (block_cards names k) (mores k))) := rfl

theorem block_cards_idx (names : Nat → Nat → String) (k j : Nat) (hj : j < 100) :
    pyIdx (some (.arr (block_cards names k))) j = .ok (cardJson (names k j)) := by
  simp only [pyIdx, block_cards]
  rw [List.getElem?_map, List.getElem?_range hj]
  rfl

theorem tcLoop_spec (env : Env) (uris mores : Nat → String)
    (names : Nat → Nat → String) (n : Nat)
    (hlink : ∀ k, k + 1 ≤ (n - 1) / 100 →
      uris (k + 1) = pySliceTo (uris k) (pyFind (uris k) "commander") ++ mores k)
    (henvk : ∀ k, 1 ≤ k → k ≤ (n - 1) / 100 →
      env.fetchJson (uris k) = .ok (more_block_response names mores k)) :
    ∀ rem i, i + rem ≤ n →
      tcLoop env rem i (uris ((i - 1) / 100))
          (some (blockJson (block_cards names ((i - 1) / 100))
            (mores ((i - 1) / 100))))
        = .ok ((List.range' i rem).flatMap (tc_events uris names)) := by
  intro rem
  induction rem with
  | zero =>
    intro i hi
    simp [tcLoop]
  | succ rem ih =>
    intro i hi
    by_cases hcond : i % 100 = 0 ∧ i / 100 ≠ 0
    · obtain ⟨hmod, hdiv⟩ := hcond
      have hi100 : 100 ≤ i := by omega
      have hprev : (i - 1) / 100 + 1 = i / 100 := by omega
      have hle : i / 100 ≤ (n - 1) / 100 :=
        Nat.div_le_div_right (by omega)
      have hlink' : uris (i / 100)
          = pySliceTo (uris ((i - 1) / 100)) (pyFind (uris ((i - 1) / 100)) "commander")
            ++ mores ((i - 1) / 100) := by
        rw [← hprev]
        exact hlink ((i - 1) / 100) (by omega)
      have henv := henvk (i / 100) (by omega) hle
      have hrest := ih (i + 1) (by omega)
      simp only [Nat.add_sub_cancel] at hrest
      simp only [tcLoop]
      rw [if_pos ⟨hmod, hdiv⟩]
      simp only [pySub_block_more, exbind_ok]
      rw [← hlink']
      simp only [henv]
      simp only [unwrap_more_block, exbind_ok]
      simp only [pySub_block_cardviews, exbind_ok]
      simp only [block_cards_idx names (i / 100) (i % 100) (by omega), exbind_ok]
      simp only [pySub_card_name, exbind_ok]
      simp only [hrest, exbind_ok, expure_eq]
      rw [List.range'_succ]
      simp only [List.flatMap_cons, tc_events,
        if_pos (⟨hmod, by omega⟩ : i % 100 = 0 ∧ i ≠ 0)]
      rfl
    · have hnc : ¬(i % 100 = 0 ∧ i ≠ 0) := by omega
      have hprev : (i - 1) / 100 = i / 100 := by omega
      have hrest := ih (i + 1) (by omega)
      simp only [Nat.add_sub_cancel] at hrest
      simp only [tcLoop]
      rw [if_neg hcond]
      simp only [pySub_block_cardviews, exbind_ok]
      simp only [block_cards_idx names ((i - 1) / 100) (i % 100) (by omega),
        exbind_ok]
      simp only [pySub_card_name, exbind_ok]
      rw [hprev]
      simp only [hrest, exbind_ok, expure_eq]
      rw [List.range'_succ]
      simp only [List.flatMap_cons, tc_events, if_neg hnc]
      rfl

theorem tc_events_yield_count (uris : Nat → String) (names : Nat → Nat → String)
    (l : List Nat) :
    ((l.flatMap (tc_events uris names)).filter Event.isYielded).length = l.length := by
  induction l with
  | nil => rfl
  | cons i l ih =>
    have h1 : ((tc_events uris names i).filter Event.isYielded).length = 1 := by
      by_cases hc : i % 100 = 0 ∧ i ≠ 0 <;>
        simp [tc_events, hc, Event.isYielded]
    simp [List.flatMap_cons, List.filter_append, h1, ih]
    omega

theorem tc_events_fetch_count (uris : Nat → String) (names : Nat → Nat → String)
    (l : List Nat) :
    ((l.flatMap (tc_events uris names)).filter Event.isFetch).length
      = l.countP (fun i => decide (i % 100 = 0 ∧ i ≠ 0)) := by
  induction l with
  | nil => rfl
  | cons i l ih =>
    by_cases hc : i % 100 = 0 ∧ i ≠ 0
    · have h1 : ((tc_events uris names i).filter Event.isFetch).length = 1 := by
        simp [tc_events, hc, Event.isFetch, Event.isYielded]
      simp [List.flatMap_cons, List.filter_append, h1, ih, List.countP_cons, hc]
      omega
    · have h1 : ((tc_events uris names i).filter Event.isFetch).length = 0 := by
        simp [tc_events, hc, Event.isFetch, Event.isYielded]
      simp [List.flatMap_cons, List.filter_append, h1, ih, List.countP_cons, hc]

theorem range_countP_blocks (n : Nat) :
    (List.range n).countP (fun i => decide (i % 100 = 0 ∧ i ≠ 0)) = (n - 1) / 100 := by
  induction n with
  | zero => rfl
  | succ n ih =>
    rw [List.range_succ, List.countP_append, ih]
    have h1 : List.countP (fun i => decide (i % 100 = 0 ∧ i ≠ 0)) [n]
        = if n % 100 = 0 ∧ n ≠ 0 then 1 else 0 := by
      by_cases hc : n % 100 = 0 ∧ n ≠ 0 <;> simp [hc]
    rw [h1]
    by_cases hc : n % 100 = 0 ∧ n ≠ 0
    · rw [if_pos hc]
      omega
    · rw [if_neg hc]
      omega

/-- C5: against a well-shaped server (hypotheses `hu0`, `henv0`,
`hlink`, `henvk`), fully consuming the paginated top-commander
sequence for any `n ≥ 0` produces exactly the claimed trace: one fetch
of the first block at the start, then `n` yields, with an additional
`more`-pointer fetch issued exactly when the yield index reaches a
positive multiple of 100; in particular the trace contains exactly `n`
yielded names and `1 + (n-1)/100` fetches (so for `n = 150` the second
fetch happens only once index 100 is reached). -/
theorem get_top_commanders_pagination (st : EDHRec) (env : Env) (query : String)
    (n : Nat) (names : Nat → Nat → String) (mores uris : Nat → String)
    (hb : pyTruthy st.current_build_id = true)
    (hu0 : uris 0 = top_commanders_uri_of st query)
    (henv0 : env.fetchJson (uris 0) = .ok (first_block_response names mores))
    (hlink : ∀ k, k + 1 ≤ (n - 1) / 100 →
      uris (k + 1) = pySliceTo (uris k) (pyFind (uris k) "commander") ++ mores k)
    (henvk : ∀ k, 1 ≤ k → k ≤ (n - 1) / 100 →
      env.fetchJson (uris k) = .ok (more_block_response names mores k)) :
    get_top_commanders st env query n
      = .ok (st, .fetch (uris 0) :: (List.range n).flatMap (tc_events uris names))
    ∧ ((Event.fetch (uris 0) :: (List.range n).flatMap (tc_events uris names)).filter
        Event.isYielded).length = n
    ∧ ((Event.fetch (uris 0) :: (List.range n).flatMap (tc_events uris names)).filter
        Event.isFetch).length = 1 + (n - 1) / 100 := by
  have hcheck : check_build_id st env = .ok (st, true) := by
    unfold check_build_id
    rw [if_pos hb]
  have hbuild : build_nextjs_uri st env "commanders" query none none none
      = .ok (st, nextjs_uri_str st "commanders" query none none,
             nextjs_params "commanders" query none none none) := by
    unfold build_nextjs_uri
    rw [hcheck]
  refine ⟨?_, ?_, ?_⟩
  · unfold get_top_commanders
    simp only [hbuild]
    have huri : (if query.length = 0
        then pyReplace (nextjs_uri_str st "commanders" query none none)
          "commanders/.json" "commanders.json"
        else nextjs_uri_str st "commanders" query none none) = uris 0 := by
      rw [hu0]
      rfl
    rw [huri]
    simp only [henv0]
    have h1 : get_nextjs_data (first_block_response names mores)
        = .ok (some (Json.obj [("container", Json.obj [("json_dict",
            Json.obj [("cardlists",
              Json.arr [blockJson (block_cards names 0) (mores 0)])])])])) := rfl
    have h2 : pySub (some (Json.obj [("container", Json.obj [("json_dict",
          Json.obj [("cardlists",
            Json.arr [blockJson (block_cards names 0) (mores 0)])])])])) "container"
        = .ok (Json.obj [("json_dict", Json.obj [("cardlists",
            Json.arr [blockJson (block_cards names 0) (mores 0)])])]) := rfl
    have h3 : pySub (some (Json.obj [("json_dict", Json.obj [("cardlists",
          Json.arr [blockJson (block_cards names 0) (mores 0)])])])) "json_dict"
        = .ok (Json.obj [("cardlists",
            Json.arr [blockJson (block_cards names 0) (mores 0)])]) := rfl
    have h4 : pySub (some (Json.obj [("cardlists",
          Json.arr [blockJson (block_cards names 0) (mores 0)])])) "cardlists"
        = .ok (Json.arr [blockJson (block_cards names 0) (mores 0)]) := rfl
    have h5 : pyIdx (some (Json.arr [blockJson (block_cards names 0) (mores 0)])) 0
        = .ok (blockJson (block_cards names 0) (mores 0)) := rfl
    simp only [h1, exbind_ok, h2, h3, h4, h5]
    have hloop := tcLoop_spec env uris mores names n hlink henvk n 0 (by omega)
    norm_num at hloop
    simp only [hloop, exbind_ok, expure_eq]
    rw [List.range_eq_range']
  · have hf : Event.isYielded (Event.fetch (uris 0)) = false := rfl
    simp [List.filter_cons, hf, tc_events_yield_count]
  · have hf : Event.isFetch (Event.fetch (uris 0)) = true := rfl
    rw [List.filter_cons, if_pos hf, List.length_cons, tc_events_fetch_count,
      range_countP_blocks]
    omega

/-- Names served by the concrete two-block C5 server. -/
def c5names : Nat → Nat → String := fun k j => "cmdr-" ++ toString k ++ "-" ++ toString j

/-- The `more` pointers served by the concrete C5 server. -/
def c5mores : Nat → String := fun k => "commanders/week-more-" ++ toString (k + 1) ++ ".json"

/-- The URI of the first block for query `week`. -/
def c5uri0 : String := top_commanders_uri_of c2state "week"

/-- The URI of the second block, as the source's pointer surgery
produces it. -/
def c5uri1 : String := pySliceTo c5uri0 (pyFind c5uri0 "commander") ++ c5mores 0

/-- The block URIs of the concrete C5 server. -/
def c5uris : Nat → String := fun k => if k = 0 then c5uri0 else c5uri1

/-- A concrete server with two full blocks of 100 commanders. -/
def c5env : Env :=
  { fetchRaw := .error (.httpError 500)
    scriptOf := fun _ => none
    parseOf := fun _ => none
    fetchJson := fun u =>
      if u = c5uri0 then .ok (first_block_response c5names c5mores)
      else if u = c5uri1 then .ok (more_block_response c5names c5mores 1)
      else .error (.httpError 404) }

theorem get_top_commanders_pagination_witness :
    get_top_commanders c2state c5env "week" 150
      = .ok (c2state,
          .fetch (c5uris 0) :: (List.range 150).flatMap (tc_events c5uris c5names))
    ∧ ((Event.fetch (c5uris 0) ::
          (List.range 150).flatMap (tc_events c5uris c5names)).filter
        Event.isYielded).length = 150
    ∧ ((Event.fetch (c5uris 0) ::
          (List.range 150).flatMap (tc_events c5uris c5names)).filter
        Event.isFetch).length = 1 + (150 - 1) / 100 :=
  get_top_commanders_pagination c2state c5env "week" 150 c5names c5mores c5uris
    rfl rfl rfl
    (fun k hk => by
      have h : k = 0 := by omega
      subst h
      rfl)
    (fun k h1 h2 => by
      have h : k = 1 := by omega
      subst h
      rfl)

end PyEDHRec
